import Mathlib

/-
  Verification development for the rp-utils repository.

  Shallow embedding of the Markdown frontmatter parsing and validation
  pipeline (src/markdown.ts), the date coercion helpers (src/date.ts),
  and the Pager pagination class (src/objects.ts).

  Modelling conventions:
  * JavaScript strings are modelled as lists of characters (Str).
  * The external js-yaml decoder and encoder, and the external zod
    schema engine, are non-goals of the spec; they are modelled as
    function parameters (load, dump, safeParse).
  * A JavaScript Date value is an instant; we represent the instant by
    its UTC civil date plus minute-of-day (CivilDT), with the invalid
    date (NaN timestamp) as the none case of Option CivilDT.  The
    environment timezone enters as a parameter tz, the offset east of
    UTC in minutes; real offsets satisfy -1440 < tz < 1440.
  * Thrown JavaScript exceptions that escape a function are modelled
    with Except; caught ones are handled inside the definitions.
-/

abbrev Str := List Char

/-- The ECMAScript whitespace set recognised by String.prototype.trim
(the common members; exotic Zs code points behave identically for the
claims at hand). -/
def isJsWhitespace (c : Char) : Bool :=
  c = ' ' || c = '\t' || c = '\n' || c = '\r' ||
  c = Char.ofNat 11 || c = Char.ofNat 12 ||
  c = Char.ofNat 0xA0 || c = Char.ofNat 0xFEFF ||
  c = Char.ofNat 0x2028 || c = Char.ofNat 0x2029 || c = Char.ofNat 0x3000

/-- Model of the JavaScript String.prototype.trim method. -/
def jsTrim (s : Str) : Str :=
  ((s.dropWhile isJsWhitespace).reverse.dropWhile isJsWhitespace).reverse

/-- Model of text.split under the regular expression matching an optional
carriage return followed by a newline, as used in parseMarkdownFile. -/
def splitLines : Str → List Str
  | [] => [[]]
  | '\r' :: '\n' :: rest => [] :: splitLines rest
  | '\n' :: rest => [] :: splitLines rest
  | c :: rest =>
    match splitLines rest with
    | [] => [[c]]
    | l :: ls => (c :: l) :: ls

/-- Model of Array.prototype.join with a separator (JavaScript join). -/
def joinSep (sep : Str) : List Str → Str
  | [] => []
  | [x] => x
  | x :: rest => x ++ sep ++ joinSep sep rest

/-- The newline separator used by the splitter when re-joining lines. -/
def nlSep : Str := "\n".data

-- ===========================================================================
-- Calendar model (JavaScript Date)
-- ===========================================================================

def isLeapYear (y : Int) : Bool :=
  (y % 4 = 0 && y % 100 ≠ 0) || y % 400 = 0

def daysInMonth (y : Int) (m : Nat) : Nat :=
  if m = 1 then 31
  else if m = 2 then (if isLeapYear y then 29 else 28)
  else if m = 3 then 31
  else if m = 4 then 30
  else if m = 5 then 31
  else if m = 6 then 30
  else if m = 7 then 31
  else if m = 8 then 31
  else if m = 9 then 30
  else if m = 10 then 31
  else if m = 11 then 30
  else 31

/-- True when the triple denotes a real calendar date (proleptic Gregorian),
the validity notion used by the V8 parser for ISO date strings. -/
def validCalendarDate (y : Int) (m d : Nat) : Bool :=
  1 ≤ m && m ≤ 12 && 1 ≤ d && d ≤ daysInMonth y m

/-- A civil UTC datetime: year, month, day and minute of the day.
This represents the instant of a valid JavaScript Date value. -/
structure CivilDT where
  year : Int
  month : Nat
  day : Nat
  minute : Int
deriving DecidableEq, Repr

/-- An invalid JavaScript Date (NaN timestamp) is none. -/
abbrev JSDate := Option CivilDT

def civilNextDay (y : Int) (m d : Nat) : Int × Nat × Nat :=
  if d < daysInMonth y m then (y, m, d + 1)
  else if m < 12 then (y, m + 1, 1)
  else (y + 1, 1, 1)

def civilPrevDay (y : Int) (m d : Nat) : Int × Nat × Nat :=
  if 1 < d then (y, m, d - 1)
  else if 1 < m then (y, m - 1, daysInMonth y (m - 1))
  else (y - 1, 12, 31)

/-- Shift a civil datetime by k minutes, for offsets smaller than one day
in magnitude (every real timezone offset is).  Crossing a day boundary
steps the civil date by one day. -/
def shiftMinutes (dt : CivilDT) (k : Int) : CivilDT :=
  let t := dt.minute + k
  if t < 0 then
    let p := civilPrevDay dt.year dt.month dt.day
    ⟨p.1, p.2.1, p.2.2, t + 1440⟩
  else if 1440 ≤ t then
    let p := civilNextDay dt.year dt.month dt.day
    ⟨p.1, p.2.1, p.2.2, t - 1440⟩
  else ⟨dt.year, dt.month, dt.day, t⟩

-- ===========================================================================
-- Digit and number formatting helpers
-- ===========================================================================

def digitVal (c : Char) : Nat := c.toNat - '0'.toNat

def charsToNat (cs : Str) : Nat :=
  cs.foldl (fun a c => a * 10 + digitVal c) 0

def natToCharsAux : Nat → Nat → Str
  | 0, _ => []
  | fuel + 1, n =>
    if n < 10 then [Nat.digitChar n]
    else natToCharsAux fuel (n / 10) ++ [Nat.digitChar (n % 10)]

/-- Decimal rendering of a natural number (JavaScript String(n) for
a non-negative integer n). -/
def natToChars (n : Nat) : Str := natToCharsAux (n + 1) n

/-- Decimal rendering of an integer (JavaScript template interpolation). -/
def intToChars (n : Int) : Str :=
  if n < 0 then '-' :: natToChars n.natAbs else natToChars n.toNat

/-- Model of str.padStart(2, "0"). -/
def padStart2 (s : Str) : Str :=
  if s.length ≥ 2 then s else '0' :: s

-- ===========================================================================
-- Date string patterns and the JavaScript Date constructor on them
-- ===========================================================================

/-- Test for the date-only regular expression shape: four digits, dash,
two digits, dash, two digits, anchored at both ends. -/
def dateOnlyTest : Str → Bool
  | [a, b, c, d, '-', e, f, '-', g, h] =>
    a.isDigit && b.isDigit && c.isDigit && d.isDigit &&
    e.isDigit && f.isDigit && g.isDigit && h.isDigit
  | _ => false

/-- Test for the date-time regular expression shape: the date-only shape
followed by a space, two digits, colon, two digits. -/
def dateTimeTest : Str → Bool
  | [a, b, c, d, '-', e, f, '-', g, h, ' ', i, j, ':', k, l] =>
    a.isDigit && b.isDigit && c.isDigit && d.isDigit &&
    e.isDigit && f.isDigit && g.isDigit && h.isDigit &&
    i.isDigit && j.isDigit && k.isDigit && l.isDigit
  | _ => false

/-- The combined pattern of convertFrontMatterStringDates in markdown.ts:
date-only with an optional space-separated hour and minute group. -/
def markdownDatePatternTest (s : Str) : Bool :=
  dateOnlyTest s || dateTimeTest s

/-- Model of the JavaScript Date constructor applied to the string shapes
this codebase feeds it, in an environment whose timezone offset east of
UTC is tz minutes:
* a date-only ISO string parses at UTC midnight when the date exists,
  otherwise gives the invalid date;
* a date-time string without a timezone designator (the space-separated
  form accepted by the engine fallback parser, and the T-separated
  ISO form produced by appending T00:00:00) parses as local time, so
  its instant is the civil time shifted west by tz;
* anything else that this model is asked about yields the invalid date.
-/
def jsNewDate (tz : Int) : Str → JSDate
  | [a, b, c, d, '-', e, f, '-', g, h] =>
    let y : Int := charsToNat [a, b, c, d]
    let m := charsToNat [e, f]
    let dd := charsToNat [g, h]
    if [a, b, c, d, e, f, g, h].all Char.isDigit && validCalendarDate y m dd
    then some ⟨y, m, dd, 0⟩ else none
  | [a, b, c, d, '-', e, f, '-', g, h, ' ', i, j, ':', k, l] =>
    let y : Int := charsToNat [a, b, c, d]
    let m := charsToNat [e, f]
    let dd := charsToNat [g, h]
    let hh := charsToNat [i, j]
    let mi := charsToNat [k, l]
    if [a, b, c, d, e, f, g, h, i, j, k, l].all Char.isDigit &&
       validCalendarDate y m dd && hh ≤ 23 && mi ≤ 59
    then some (shiftMinutes ⟨y, m, dd, (hh * 60 + mi : Nat)⟩ (-tz)) else none
  | [a, b, c, d, '-', e, f, '-', g, h, 'T', '0', '0', ':', '0', '0', ':', '0', '0'] =>
    let y : Int := charsToNat [a, b, c, d]
    let m := charsToNat [e, f]
    let dd := charsToNat [g, h]
    if [a, b, c, d, e, f, g, h].all Char.isDigit && validCalendarDate y m dd
    then some (shiftMinutes ⟨y, m, dd, 0⟩ (-tz)) else none
  | _ => none

-- ===========================================================================
-- src/date.ts
-- ===========================================================================

/-- A JavaScript value as it appears in decoded frontmatter mappings.
Numbers are modelled as integers; that is enough for every claim. -/
inductive JsValue where
  | nullv : JsValue
  | boolv : Bool → JsValue
  | num : Int → JsValue
  | str : Str → JsValue
  | date : JSDate → JsValue
  | arr : List JsValue → JsValue
  | obj : List (Str × JsValue) → JsValue

/-- A frontmatter mapping: an ordered record of string keys and values. -/
abbrev FrontMatter := List (Str × JsValue)

/-- convertFrontmatterDateStrings from src/date.ts: for each top-level
string value matching the date-only or date-time pattern, build a Date
(date-only strings get T00:00:00 appended first, which the engine parses
as local time); when the built Date is invalid the code throws, catches
its own throw, warns, and keeps the original string. -/
def convertFrontmatterDateStrings (tz : Int) (obj : FrontMatter) : FrontMatter :=
  obj.map (fun kv =>
    match kv.2 with
    | JsValue.str s =>
      if dateOnlyTest s || dateTimeTest s then
        let dateString := if dateOnlyTest s then s ++ "T00:00:00".data else s
        match jsNewDate tz dateString with
        | some dt => (kv.1, JsValue.date (some dt))
        | none => kv
      else kv
    | _ => kv)

/-- convertDateToStringYYYY_MM_DD from src/date.ts: format a Date with
the UTC accessors as year, dash, two-digit month, dash, two-digit day.
On the invalid date every UTC accessor is NaN and the output degrades
to the NaN renderings, exactly as the JavaScript code would produce. -/
def convertDateToStringYYYY_MM_DD : JSDate → Str
  | none => "NaN-NaN-NaN".data
  | some dt =>
    intToChars dt.year ++ "-".data ++
    padStart2 (natToChars dt.month) ++ "-".data ++
    padStart2 (natToChars dt.day)

-- ===========================================================================
-- src/markdown.ts : date pass, splitter, parser
-- ===========================================================================

/-- Model of the truthiness-and-typeof test in parseMarkdownFile:
parsed is kept as the frontmatter record exactly when it is truthy and
typeof parsed is the string object.  Arrays and Date values satisfy the
test; null, booleans, numbers and strings do not. -/
def jsTruthyObject : JsValue → Bool
  | JsValue.arr _ => true
  | JsValue.obj _ => true
  | JsValue.date _ => true
  | _ => false

/-- Model of Object.entries: own enumerable entries of an object, or the
index-keyed entries of an array; a Date exposes no enumerable entries. -/
def jsEntries : JsValue → FrontMatter
  | JsValue.obj kvs => kvs
  | JsValue.arr xs => (List.range xs.length).map
      (fun i => (natToChars i, xs.getD i JsValue.nullv))
  | _ => []

/-- convertFrontMatterStringDates, the private date pass inside
src/markdown.ts: for each entry whose value is a string matching the
combined date pattern it stores new Date(value) unconditionally; there
is no validity check, so a shape-matching but non-existent date becomes
the invalid date value. -/
def convertFrontMatterStringDates (tz : Int) (parsedFrontMatter : FrontMatter) :
    FrontMatter :=
  parsedFrontMatter.map (fun kv =>
    match kv.2 with
    | JsValue.str s =>
      if markdownDatePatternTest s then (kv.1, JsValue.date (jsNewDate tz s))
      else kv
    | _ => kv)

/-- The delimiter test of the splitter loop: the line trims to three
dashes. -/
def isDelimLine (l : Str) : Bool := jsTrim l = "---".data

/-- The line loop of parseMarkdownFile, written as structural recursion
on the remaining lines with the loop state (the delimiter counter and
the inside-frontmatter flag) as arguments.  Returns the collected
frontmatter lines and content lines, in order.  Branches correspond
one to one with the loop body of lines 336 to 355 of markdown.ts; in
particular a delimiter-shaped line is always consumed by the continue
statement, whatever the counter. -/
def splitFMGo (count : Nat) (inFrontMatter : Bool) :
    List Str → List Str × List Str
  | [] => ([], [])
  | line :: rest =>
    if isDelimLine line then
      let c := count + 1
      splitFMGo c
        (if c = 1 then true else if c = 2 then false else inFrontMatter) rest
    else
      let r := splitFMGo count inFrontMatter rest
      if inFrontMatter then (line :: r.1, r.2)
      else if 2 ≤ count then (r.1, line :: r.2)
      else if count = 0 then (r.1, line :: r.2)
      else r

/-- The splitter applied to the file lines from the initial state. -/
def splitFrontMatter (fileLines : List Str) : List Str × List Str :=
  splitFMGo 0 false fileLines

/-- Result of parsing a single markdown file (the ParseResult union). -/
inductive ParseResult where
  | success : FrontMatter → Str → ParseResult
  | failure : Str → Str → ParseResult

/-- The fixed failure message for a missing or empty frontmatter block. -/
def failedParseMsg : Str := "Failed to parse frontmatter".data

/-- The raw frontmatter block handed to the YAML decoder: the collected
frontmatter lines joined by newlines and trimmed. -/
def rawFrontMatterOf (text : Str) : Str :=
  jsTrim (joinSep nlSep (splitFrontMatter (splitLines text)).1)

/-- The joined content of the parse result. -/
def contentOf (text : Str) : Str :=
  joinSep nlSep (splitFrontMatter (splitLines text)).2

/-- parseMarkdownFile on the file contents (the file read is modelled
separately).  load is the external yaml.load decoder: a successful
decode yields a value, a thrown decode error yields its message. -/
def parseMarkdownText (tz : Int) (load : Str → Except Str JsValue)
    (filename : Str) (text : Str) : ParseResult :=
  let rawFrontMatter := rawFrontMatterOf text
  if rawFrontMatter ≠ [] then
    match load rawFrontMatter with
    | Except.ok parsed =>
      let pf0 := if jsTruthyObject parsed then parsed else JsValue.obj []
      let parsedFrontMatter := convertFrontMatterStringDates tz (jsEntries pf0)
      ParseResult.success parsedFrontMatter (contentOf text)
    | Except.error e => ParseResult.failure e filename
  else ParseResult.failure failedParseMsg filename

-- ===========================================================================
-- src/markdown.ts : batch collection
-- ===========================================================================

/-- The DirentInfo proxy record. -/
structure DirentInfo where
  name : Str
  path : Str
  parentPath : Str
deriving DecidableEq, Repr

/-- path.join of a parent path and a file name (the only use sites join
a directory with a bare file name, where join inserts one separator). -/
def pathJoin (parent name : Str) : Str := parent ++ "/".data ++ name

/-- A successfully parsed markdown file with its dirent. -/
structure MarkdownFileResult where
  dirent : DirentInfo
  frontMatter : FrontMatter
  content : Str

/-- A failed parse entry of the batch result. -/
structure FailedEntry where
  filename : Str
  dirent : DirentInfo
  error : Str
deriving DecidableEq, Repr

/-- The batch result of getMarkdownObjects. -/
structure MarkdownParseResult where
  successful : List MarkdownFileResult
  failed : List FailedEntry

/-- parseMarkdownFile including the file read: the read outcome is data
(contents, or the rejection message of the read).  The body of
parseMarkdownFile starts with an unguarded await of the read, so a read
failure escapes as a rejection, modelled by the error case. -/
def parseMarkdownFileM (tz : Int) (load : Str → Except Str JsValue)
    (filename : Str) (read : Except Str Str) : Except Str ParseResult :=
  match read with
  | Except.error e => Except.error e
  | Except.ok text => Except.ok (parseMarkdownText tz load filename text)

/-- getMarkdownObjects over the enumerated directory entries, each paired
with the outcome of reading it.  The per-file tasks append to the
successful and failed lists; a rejected per-file task makes the awaited
Promise.all reject, so the whole call rejects with that message.  The
completion order of the parallel tasks is modelled as list order. -/
def getMarkdownObjectsGo (tz : Int) (load : Str → Except Str JsValue)
    (successful : List MarkdownFileResult) (failed : List FailedEntry) :
    List (DirentInfo × Except Str Str) → Except Str MarkdownParseResult
  | [] => Except.ok ⟨successful, failed⟩
  | (fi, read) :: rest =>
    let fullFilename := pathJoin fi.parentPath fi.name
    match parseMarkdownFileM tz load fullFilename read with
    | Except.error e => Except.error e
    | Except.ok (ParseResult.success fm content) =>
      getMarkdownObjectsGo tz load (successful ++ [⟨fi, fm, content⟩]) failed rest
    | Except.ok (ParseResult.failure err fn) =>
      getMarkdownObjectsGo tz load successful (failed ++ [⟨fn, fi, err⟩]) rest

def getMarkdownObjects (tz : Int) (load : Str → Except Str JsValue)
    (files : List (DirentInfo × Except Str Str)) :
    Except Str MarkdownParseResult :=
  getMarkdownObjectsGo tz load [] [] files

-- ===========================================================================
-- src/markdown.ts : writeMarkdownFile
-- ===========================================================================

/-- The file contents built by writeMarkdownFile before writing: dump is
the external yaml.dump serializer.  The three appends mirror lines 475
to 502 of markdown.ts: delimiters around the dumped YAML when the
mapping has keys, then the content preceded by one newline when both
parts are present. -/
def writeMarkdownFileContent (dump : FrontMatter → Str)
    (frontMatter : FrontMatter) (content : Str) : Str :=
  let md0 : Str := []
  let md1 :=
    if frontMatter.length > 0 then
      md0 ++ "---\n".data ++ dump frontMatter ++ "---".data
    else md0
  if content ≠ [] then
    (if md1 ≠ [] then md1 ++ "\n".data else md1) ++ content
  else md1

/-- The output shape claimed by the spec for a non-empty mapping, built
from the words of the spec: the YAML serialization wrapped in delimiter
lines, followed by a blank line, followed by the body text. -/
def writeMarkdownSpecShape (dump : FrontMatter → Str)
    (frontMatter : FrontMatter) (content : Str) : Str :=
  "---\n".data ++ dump frontMatter ++ "---\n".data ++ "\n".data ++ content

-- ===========================================================================
-- src/markdown.ts : validateMarkdownObjects
-- ===========================================================================

/-- A field-level issue reported by the external schema engine. -/
structure Issue where
  fieldPath : List Str
  message : Str

/-- A validated markdown document with schema-typed frontmatter. -/
structure MarkdownDocumentT (β : Type) where
  dirent : DirentInfo
  frontMatter : β
  content : Str

/-- The aggregate returned by validateMarkdownObjects. -/
structure MarkdownObjectsValidState (β : Type) where
  filesFound : Nat
  filesValid : Nat
  validationErrors : List Str
  validatedObjects : List (MarkdownDocumentT β)

/-- One formatted error line for an issue: four spaces, the word Error,
the dot-joined field path and the message. -/
def issueLine (i : Issue) : Str :=
  "    Error: ".data ++ joinSep ".".data i.fieldPath ++ ": ".data ++ i.message

/-- The per-file header line pushed before the first error of a file. -/
def filenameHeader (fullFilename : Str) : Str :=
  "\nFilename: ".data ++ fullFilename

/-- The issues.forEach loop of validateMarkdownObjects: pushes the
filename header when the file differs from previousFilename (updating
it), then one line per issue.  Returns the pushed lines and the updated
previousFilename. -/
def issuesLines (fullFilename : Str) : List Issue → Str → List Str × Str
  | [], prev => ([], prev)
  | i :: rest, prev =>
    let hdr : List Str :=
      if fullFilename ≠ prev then [filenameHeader fullFilename] else []
    let prevNext := if fullFilename ≠ prev then fullFilename else prev
    let r := issuesLines fullFilename rest prevNext
    (hdr ++ [issueLine i] ++ r.1, r.2)

/-- The objects.forEach loop of validateMarkdownObjects, carrying
previousFilename; returns the pushed error lines, the filesValid count
and the validated objects, in order.  safeParse is the external
schema.safeParse: success carries the re-typed data, failure carries
the issue list. -/
def validateGo (safeParse : FrontMatter → Except (List Issue) β) :
    List MarkdownFileResult → Str →
    List Str × Nat × List (MarkdownDocumentT β)
  | [], _ => ([], 0, [])
  | obj :: rest, prev =>
    match safeParse obj.frontMatter with
    | Except.error issues =>
      let fullFilename := pathJoin obj.dirent.parentPath obj.dirent.name
      let el := issuesLines fullFilename issues prev
      let r := validateGo safeParse rest el.2
      (el.1 ++ r.1, r.2.1, r.2.2)
    | Except.ok data =>
      let r := validateGo safeParse rest prev
      (r.1, r.2.1 + 1, ⟨obj.dirent, data, obj.content⟩ :: r.2.2)

/-- The header line prepended when any validation error was collected;
now stands for the formatted current date and time. -/
def validationHeaderLine (now : Str) : Str :=
  "Frontmatter Validation Errors  ".data ++ now

/-- validateMarkdownObjects from src/markdown.ts, lines 232 to 287. -/
def validateMarkdownObjects (safeParse : FrontMatter → Except (List Issue) β)
    (now : Str) (objects : List MarkdownFileResult) :
    MarkdownObjectsValidState β :=
  let r := validateGo safeParse objects []
  let validationErrors :=
    if r.1.length > 0 then validationHeaderLine now :: r.1 else r.1
  ⟨objects.length, r.2.1, validationErrors, r.2.2⟩

/-- Boolean success test for an Except outcome. -/
def exceptIsOk : Except ε α → Bool
  | Except.ok _ => true
  | Except.error _ => false

-- ===========================================================================
-- src/objects.ts : the Pager class
-- ===========================================================================

/-- Pager getTotalPages: zero rows give zero pages, otherwise the
ceiling of rows over pageSize (Math.ceil on the exact quotient). -/
def pagerTotalPages (rows pageSize : Nat) : Nat :=
  if rows = 0 then 0 else (rows + pageSize - 1) / pageSize

/-- Pager isValidPage. -/
def pagerIsValidPage (totalPages p : Nat) : Bool :=
  1 ≤ p && p ≤ totalPages

/-- The private getBoundingRowsForPage: last is pageNumber times
pageSize minus one, first is last minus pageSize plus one (JavaScript
number arithmetic, hence integers). -/
def pagerBoundingRaw (pageNumber pageSize : Nat) : Int × Int :=
  let last : Int := (pageNumber : Int) * pageSize - 1
  (last - pageSize + 1, last)

/-- The public getBoundingRowsForPage after its validity check: clamps
last to rowCount minus one when it reaches past the row count. -/
def pagerBounding (rowCount pageNumber pageSize : Nat) : Int × Int :=
  let b := pagerBoundingRaw pageNumber pageSize
  if b.2 ≥ (rowCount : Int) then (b.1, (rowCount : Int) - 1) else b

/-- Model of Array.prototype.slice with integer arguments and the
ECMAScript clamping of both endpoints to the array bounds. -/
def jsSlice (arr : List α) (start stop : Int) : List α :=
  let len : Int := arr.length
  let s := if start < 0 then max (len + start) 0 else min start len
  let e := if stop < 0 then max (len + stop) 0 else min stop len
  (arr.drop s.toNat).take (e - s).toNat

/-- The private getPrevAndNextPage: minus one marks a missing
neighbour. -/
def pagerPrevNext (totalPages pageNumber : Nat) : Int × Int :=
  ((if (pageNumber : Int) - 1 = 0 then -1 else (pageNumber : Int) - 1),
   (if (pageNumber : Int) + 1 > (totalPages : Int) then -1
    else (pageNumber : Int) + 1))

/-- The record returned by Pager.getRowsForPage. -/
structure PageRows (α : Type) where
  dataRows : List α
  prevPageNumber : Int
  nextPageNumber : Int
  currentPage : Nat
  totalPages : Nat
  hasNext : Bool
  hasPrev : Bool
  startIndex : Int
  endIndex : Int

/-- Pager.getRowsForPage for a pager built from arr and pageSize: the
RangeError on an invalid page number is the none case.  The pager
constructor copies arr and stores rowCount, pageSize and totalPages;
those fields appear here as the derived values. -/
def pagerGetRowsForPage (arr : List α) (pageSize pageNumber : Nat) :
    Option (PageRows α) :=
  let totalPages := pagerTotalPages arr.length pageSize
  if pagerIsValidPage totalPages pageNumber then
    let b := pagerBounding arr.length pageNumber pageSize
    let pn := pagerPrevNext totalPages pageNumber
    some
      { dataRows := jsSlice arr b.1 (b.2 + 1)
        prevPageNumber := pn.1
        nextPageNumber := pn.2
        currentPage := pageNumber
        totalPages := totalPages
        hasNext := pn.2 ≠ -1
        hasPrev := pn.1 ≠ -1
        startIndex := b.1
        endIndex := b.2 }
  else none

/-- The dataRows of a page, with the RangeError case as the empty list
(used only to state aggregate properties over the valid page range). -/
def pagerDataRows (arr : List α) (pageSize pageNumber : Nat) : List α :=
  match pagerGetRowsForPage arr pageSize pageNumber with
  | some pr => pr.dataRows
  | none => []

-- ===========================================================================
-- Concrete instances used by witnesses and counterexamples
-- ===========================================================================

/-- A concrete decoder for witnesses: decodes the single mapping
a colon one, rejects everything else. -/
def loadStubA : Str → Except Str JsValue := fun s =>
  if s = "a: 1".data then Except.ok (JsValue.obj [("a".data, JsValue.num 1)])
  else Except.error "err".data

/-- A concrete decoder that always reports a YAML decode error. -/
def loadErrStub : Str → Except Str JsValue := fun _ =>
  Except.error "bad indentation of a mapping entry".data

/-- A concrete decoder that decodes every block to the sequence with the
single element a. -/
def loadSeqStub : Str → Except Str JsValue := fun _ =>
  Except.ok (JsValue.arr [JsValue.str "a".data])

/-- A concrete decoder that decodes every block to null. -/
def loadNullStub : Str → Except Str JsValue := fun _ =>
  Except.ok JsValue.nullv

/-- A concrete serializer for witnesses. -/
def dumpStub : FrontMatter → Str := fun _ => "t: x\n".data

def pathStub : Str := "doc.md".data

/-- A file text with three delimiter-shaped lines, the third inside the
body. -/
def threeDelimText : Str := "---\na: 1\n---\nbody\n---\nafter".data

/-- A file text with no delimiter-shaped line. -/
def noDelimText : Str := "just body text\nsecond line".data

/-- A file text with a well-formed block around undecodable YAML. -/
def badYamlText : Str := "---\nbad\n---\nbody".data

/-- A file text whose block decodes to a non-mapping. -/
def seqText : Str := "---\n- a\n---\nbody".data

def direntA : DirentInfo := ⟨"good.md".data, [], "posts".data⟩
def direntB : DirentInfo := ⟨"bad.md".data, [], "posts".data⟩

def goodText : Str := "---\na: 1\n---\nhello".data

/-- The number of delimiter-shaped lines of a line list. -/
def countDelimLines (lines : List Str) : Nat := lines.countP isDelimLine

-- ===========================================================================
-- Spec-side descriptions used by refinement statements
-- ===========================================================================

/-- The successes a batch run produces when every read succeeds, as a
partition of the input files. -/
def batchSuccesses (tz : Int) (load : Str → Except Str JsValue)
    (files : List (DirentInfo × Except Str Str)) : List MarkdownFileResult :=
  files.filterMap (fun fr =>
    match fr.2 with
    | Except.ok text =>
      match parseMarkdownText tz load (pathJoin fr.1.parentPath fr.1.name) text with
      | ParseResult.success fm content => some ⟨fr.1, fm, content⟩
      | ParseResult.failure _ _ => none
    | Except.error _ => none)

/-- The failure entries a batch run produces when every read succeeds. -/
def batchFailures (tz : Int) (load : Str → Except Str JsValue)
    (files : List (DirentInfo × Except Str Str)) : List FailedEntry :=
  files.filterMap (fun fr =>
    match fr.2 with
    | Except.ok text =>
      match parseMarkdownText tz load (pathJoin fr.1.parentPath fr.1.name) text with
      | ParseResult.success _ _ => none
      | ParseResult.failure err fn => some ⟨fn, fr.1, err⟩
    | Except.error _ => none)

/-- Null or a scalar: the decode results the spec says are normalized to
the empty mapping. -/
def isNullOrScalar : JsValue → Bool
  | JsValue.nullv => true
  | JsValue.boolv _ => true
  | JsValue.num _ => true
  | JsValue.str _ => true
  | _ => false

-- ===========================================================================
-- Theorems: splitter lemmas
-- ===========================================================================

/-- A delimiter-shaped line is consumed and steps the counter. -/
theorem splitFMGo_delim_cons (c : Nat) (b : Bool) (line : Str)
    (rest : List Str) (h : isDelimLine line = true) :
    splitFMGo c b (line :: rest) =
      splitFMGo (c + 1)
        (if c + 1 = 1 then true else if c + 1 = 2 then false else b) rest := by
  simp [splitFMGo, h]

/-- From counter two on with the flag down, the remaining lines become
the content with every delimiter-shaped line dropped. -/
theorem splitFMGo_ge_two (lines : List Str) :
    ∀ c, 2 ≤ c →
      splitFMGo c false lines = ([], lines.filter (fun l => !isDelimLine l)) := by
  induction lines with
  | nil => intro c _; rfl
  | cons line rest ih =>
    intro c hc
    by_cases h : isDelimLine line = true
    · rw [splitFMGo_delim_cons c false line rest h]
      have h1 : ¬ (c + 1 = 1) := by omega
      have h2 : ¬ (c + 1 = 2) := by omega
      simp only [if_neg h1, if_neg h2]
      rw [ih (c + 1) (by omega)]
      simp [List.filter, h]
    · have h' : isDelimLine line = false := by simp_all
      simp only [splitFMGo, h', Bool.false_eq_true, if_false]
      rw [ih c hc]
      have : 2 ≤ c := hc
      simp [List.filter, h', this]

/-- While the flag is up, non-delimiter lines are collected into the
frontmatter buffer. -/
theorem splitFMGo_fm_collect (l2 : List Str) (rest : List Str)
    (h : ∀ x ∈ l2, isDelimLine x = false) :
    splitFMGo 1 true (l2 ++ rest) =
      (l2 ++ (splitFMGo 1 true rest).1, (splitFMGo 1 true rest).2) := by
  induction l2 with
  | nil => simp
  | cons x xs ih =>
    have hx : isDelimLine x = false := h x (by simp)
    have hxs : ∀ y ∈ xs, isDelimLine y = false := fun y hy => h y (by simp [hy])
    simp [splitFMGo, hx, ih hxs]

/-- Before any delimiter, non-delimiter lines are collected into the
content buffer. -/
theorem splitFMGo_content_collect (l1 : List Str) (rest : List Str)
    (h : ∀ x ∈ l1, isDelimLine x = false) :
    splitFMGo 0 false (l1 ++ rest) =
      ((splitFMGo 0 false rest).1, l1 ++ (splitFMGo 0 false rest).2) := by
  induction l1 with
  | nil => simp
  | cons x xs ih =>
    have hx : isDelimLine x = false := h x (by simp)
    have hxs : ∀ y ∈ xs, isDelimLine y = false := fun y hy => h y (by simp [hy])
    simp [splitFMGo, hx, ih hxs]

/-- With no delimiter-shaped line at all, the frontmatter buffer stays
empty. -/
theorem splitFrontMatter_no_delim_fst (lines : List Str)
    (h : ∀ x ∈ lines, isDelimLine x = false) :
    (splitFrontMatter lines).1 = [] := by
  unfold splitFrontMatter
  have := splitFMGo_content_collect lines [] h
  rw [List.append_nil] at this
  rw [this]
  rfl

/-- C1 counterexample.  On a file with three delimiter-shaped lines, the
third one inside the body, the parsed content is the body with the
delimiter line removed: it is consumed by the splitter, not kept as an
ordinary body-text line as the claim states. -/
theorem thirdDelimiterDropped_cx :
    countDelimLines (splitLines threeDelimText) = 3 ∧
    parseMarkdownText 0 loadStubA pathStub threeDelimText =
      ParseResult.success [("a".data, JsValue.num 1)] "body\nafter".data ∧
    "---".data ∉ splitLines (contentOf threeDelimText) :=
  ⟨by decide, rfl, by decide⟩

/-- C1 amended.  For a file text of the shape prefix, first delimiter,
block, second delimiter, body: every delimiter-shaped line of the body
is consumed (it appears in neither buffer), while the non-delimiter
body lines are kept in the content in order, after any lines preceding
the first delimiter. -/
theorem thirdDelimiterConsumed (l1 l2 body : List Str) (d1 d2 : Str)
    (h1 : ∀ x ∈ l1, isDelimLine x = false)
    (h2 : ∀ x ∈ l2, isDelimLine x = false)
    (hd1 : isDelimLine d1 = true) (hd2 : isDelimLine d2 = true) :
    splitFrontMatter (l1 ++ d1 :: (l2 ++ d2 :: body)) =
      (l2, l1 ++ body.filter (fun l => !isDelimLine l)) := by
  unfold splitFrontMatter
  rw [splitFMGo_content_collect l1 _ h1]
  rw [splitFMGo_delim_cons 0 false d1 _ hd1]
  norm_num
  rw [splitFMGo_fm_collect l2 _ h2]
  rw [splitFMGo_delim_cons 1 true d2 _ hd2]
  norm_num
  rw [splitFMGo_ge_two body 2 (by omega)]
  simp

/-- C1 amended, witness at a concrete file shape. -/
theorem thirdDelimiterConsumed_witness :
    ((∀ x ∈ ([] : List Str), isDelimLine x = false) ∧
     (∀ x ∈ [['a']], isDelimLine x = false) ∧
     isDelimLine "---".data = true) ∧
    splitFrontMatter
        ([] ++ "---".data :: ([['a']] ++ "---".data :: [['b'], "---".data, ['c']])) =
      ([['a']], [] ++ [['b'], "---".data, ['c']].filter (fun l => !isDelimLine l)) :=
  ⟨⟨by decide, by decide, by decide⟩,
   thirdDelimiterConsumed [] [['a']] [['b'], "---".data, ['c']]
     "---".data "---".data (by decide) (by decide) (by decide) (by decide)⟩

/-- C2.  A file with no delimiter-shaped line, and in general any file
whose collected frontmatter block trims to nothing, parses to the
failure outcome with the fixed message and the file path; no part of
a document is returned. -/
theorem noFrontmatterBlockFails (tz : Int) (load : Str → Except Str JsValue)
    (filename text : Str)
    (h : (∀ l ∈ splitLines text, isDelimLine l = false) ∨
         rawFrontMatterOf text = []) :
    parseMarkdownText tz load filename text =
      ParseResult.failure failedParseMsg filename := by
  have hraw : rawFrontMatterOf text = [] := by
    cases h with
    | inr h => exact h
    | inl h =>
      unfold rawFrontMatterOf
      rw [splitFrontMatter_no_delim_fst (splitLines text) h]
      rfl
  simp [parseMarkdownText, hraw]

/-- C2, witness at a concrete delimiter-free file. -/
theorem noFrontmatterBlockFails_witness :
    ((∀ l ∈ splitLines noDelimText, isDelimLine l = false) ∨
     rawFrontMatterOf noDelimText = []) ∧
    parseMarkdownText 0 loadStubA pathStub noDelimText =
      ParseResult.failure failedParseMsg pathStub :=
  ⟨Or.inl (by decide),
   noFrontmatterBlockFails 0 loadStubA pathStub noDelimText (Or.inl (by decide))⟩

/-- C6.  When the block is non-empty and the decoder reports a decode
error, the parse returns the failure outcome carrying the decoder
message and the path; the thrown error does not escape. -/
theorem decodeErrorBecomesFailure (tz : Int) (load : Str → Except Str JsValue)
    (filename text msg : Str)
    (hraw : rawFrontMatterOf text ≠ [])
    (hload : load (rawFrontMatterOf text) = Except.error msg) :
    parseMarkdownText tz load filename text = ParseResult.failure msg filename := by
  simp [parseMarkdownText, hraw, hload]

/-- C6, witness at a concrete file and decoder. -/
theorem decodeErrorBecomesFailure_witness :
    (rawFrontMatterOf badYamlText ≠ [] ∧
     loadErrStub (rawFrontMatterOf badYamlText) =
       Except.error "bad indentation of a mapping entry".data) ∧
    parseMarkdownText 0 loadErrStub pathStub badYamlText =
      ParseResult.failure "bad indentation of a mapping entry".data pathStub :=
  ⟨⟨by decide, rfl⟩,
   decodeErrorBecomesFailure 0 loadErrStub pathStub badYamlText
     "bad indentation of a mapping entry".data (by decide) rfl⟩

/-- C7 counterexample.  A block that decodes to a YAML sequence is a
successful decode to a non-mapping value, yet the returned frontmatter
is the index-keyed mapping of the sequence, not the empty mapping. -/
theorem sequenceDecodeKept_cx :
    parseMarkdownText 0 loadSeqStub pathStub seqText =
      ParseResult.success [(['0'], JsValue.str ['a'])] "body".data ∧
    [(['0'], JsValue.str ['a'])] ≠ ([] : FrontMatter) :=
  ⟨rfl, by simp⟩

/-- C7 amended.  A non-empty block that decodes to null or to a scalar
is normalized to the empty mapping and the parse succeeds; sequences
are excluded, since the object test of the code accepts them. -/
theorem scalarDecodeNormalized (tz : Int) (load : Str → Except Str JsValue)
    (filename text : Str) (v : JsValue)
    (hraw : rawFrontMatterOf text ≠ [])
    (hload : load (rawFrontMatterOf text) = Except.ok v)
    (hv : isNullOrScalar v = true) :
    parseMarkdownText tz load filename text =
      ParseResult.success [] (contentOf text) := by
  have hobj : jsTruthyObject v = false := by
    cases v <;> simp_all [isNullOrScalar, jsTruthyObject]
  simp [parseMarkdownText, hraw, hload, hobj, jsEntries,
    convertFrontMatterStringDates]

/-- C7 amended, witness at a concrete file whose block decodes to
null. -/
theorem scalarDecodeNormalized_witness :
    (rawFrontMatterOf badYamlText ≠ [] ∧
     loadNullStub (rawFrontMatterOf badYamlText) = Except.ok JsValue.nullv ∧
     isNullOrScalar JsValue.nullv = true) ∧
    parseMarkdownText 0 loadNullStub pathStub badYamlText =
      ParseResult.success [] (contentOf badYamlText) :=
  ⟨⟨by decide, rfl, rfl⟩,
   scalarDecodeNormalized 0 loadNullStub pathStub badYamlText JsValue.nullv
     (by decide) rfl rfl⟩

-- ===========================================================================
-- Theorems: batch collection (C3)
-- ===========================================================================

/-- C3 counterexample.  A batch containing one file whose read fails
makes the whole getMarkdownObjects call reject with the read error:
the failure is not caught, no failed list is returned, and the sibling
results are lost. -/
theorem batchReadFailureRaises_cx :
    getMarkdownObjects 0 loadStubA
        [(direntA, Except.ok goodText), (direntB, Except.error "ENOENT".data)] =
      Except.error "ENOENT".data := rfl

/-- When every read succeeds, the loop partitions the files into parse
successes and parse failures appended to the accumulators in order. -/
theorem getMarkdownObjectsGo_all_ok (tz : Int)
    (load : Str → Except Str JsValue) :
    ∀ (files : List (DirentInfo × Except Str Str)),
      (∀ p ∈ files, exceptIsOk p.2 = true) →
      ∀ successful failed,
        getMarkdownObjectsGo tz load successful failed files =
          Except.ok ⟨successful ++ batchSuccesses tz load files,
                     failed ++ batchFailures tz load files⟩ := by
  intro files
  induction files with
  | nil => intro _ successful failed; simp [getMarkdownObjectsGo, batchSuccesses, batchFailures]
  | cons fr rest ih =>
    intro h successful failed
    have hok : exceptIsOk fr.2 = true := h fr (by simp)
    have hrest : ∀ p ∈ rest, exceptIsOk p.2 = true := fun p hp => h p (by simp [hp])
    obtain ⟨fi, read⟩ := fr
    cases read with
    | error e => simp [exceptIsOk] at hok
    | ok text =>
      cases hp : parseMarkdownText tz load (pathJoin fi.parentPath fi.name) text with
      | success fm content =>
        simp only [getMarkdownObjectsGo, parseMarkdownFileM, hp]
        rw [ih hrest]
        simp [batchSuccesses, batchFailures, hp, List.filterMap_cons]
      | failure err fn =>
        simp only [getMarkdownObjectsGo, parseMarkdownFileM, hp]
        rw [ih hrest]
        simp [batchSuccesses, batchFailures, hp, List.filterMap_cons]

/-- The loop rejects with the first read error once the files before it
all read successfully. -/
theorem getMarkdownObjectsGo_read_error (tz : Int)
    (load : Str → Except Str JsValue) :
    ∀ (pre : List (DirentInfo × Except Str Str)) (fi : DirentInfo) (e : Str)
      (post : List (DirentInfo × Except Str Str)),
      (∀ p ∈ pre, exceptIsOk p.2 = true) →
      ∀ successful failed,
        getMarkdownObjectsGo tz load successful failed
            (pre ++ (fi, Except.error e) :: post) =
          Except.error e := by
  intro pre
  induction pre with
  | nil =>
    intro fi e post _ successful failed
    simp [getMarkdownObjectsGo, parseMarkdownFileM]
  | cons fr rest ih =>
    intro fi e post h successful failed
    have hok : exceptIsOk fr.2 = true := h fr (by simp)
    have hrest : ∀ p ∈ rest, exceptIsOk p.2 = true := fun p hp => h p (by simp [hp])
    obtain ⟨fj, read⟩ := fr
    cases read with
    | error e2 => simp [exceptIsOk] at hok
    | ok text =>
      cases hp : parseMarkdownText tz load (pathJoin fj.parentPath fj.name) text with
      | success fm content =>
        simp only [List.cons_append, getMarkdownObjectsGo, parseMarkdownFileM, hp]
        exact ih fi e post hrest _ _
      | failure err fn =>
        simp only [List.cons_append, getMarkdownObjectsGo, parseMarkdownFileM, hp]
        exact ih fi e post hrest _ _

/-- C3 amended.  A read failure is not caught: the batch call rejects
with the read error (after any earlier files read successfully), and
nothing is recorded.  When every read succeeds, per-file parse failures
are recorded in the failed list keyed by the file path while all
sibling files are still parsed and reported. -/
theorem batchPartitionBehavior (tz : Int) (load : Str → Except Str JsValue) :
    (∀ (pre : List (DirentInfo × Except Str Str)) (fi : DirentInfo) (e : Str)
       (post : List (DirentInfo × Except Str Str)),
       (∀ p ∈ pre, exceptIsOk p.2 = true) →
       getMarkdownObjects tz load (pre ++ (fi, Except.error e) :: post) =
         Except.error e) ∧
    (∀ (files : List (DirentInfo × Except Str Str)),
       (∀ p ∈ files, exceptIsOk p.2 = true) →
       getMarkdownObjects tz load files =
         Except.ok ⟨batchSuccesses tz load files, batchFailures tz load files⟩) := by
  constructor
  · intro pre fi e post h
    exact getMarkdownObjectsGo_read_error tz load pre fi e post h [] []
  · intro files h
    have := getMarkdownObjectsGo_all_ok tz load files h [] []
    simpa [getMarkdownObjects] using this

/-- C3 amended, witness at a concrete two-file batch with one file that
fails to parse. -/
theorem batchPartitionBehavior_witness :
    ((∀ p ∈ [(direntA, (Except.ok goodText : Except Str Str))],
        exceptIsOk p.2 = true) ∧
     (∀ p ∈ [(direntA, (Except.ok goodText : Except Str Str)),
             (direntB, Except.ok noDelimText)],
        exceptIsOk p.2 = true)) ∧
    getMarkdownObjects 0 loadStubA
        ([(direntA, (Except.ok goodText : Except Str Str))] ++
          (direntB, (Except.error "ENOENT".data : Except Str Str)) :: []) =
      Except.error "ENOENT".data ∧
    getMarkdownObjects 0 loadStubA
        [(direntA, (Except.ok goodText : Except Str Str)),
         (direntB, Except.ok noDelimText)] =
      Except.ok
        ⟨batchSuccesses 0 loadStubA
            [(direntA, (Except.ok goodText : Except Str Str)),
             (direntB, Except.ok noDelimText)],
         batchFailures 0 loadStubA
            [(direntA, (Except.ok goodText : Except Str Str)),
             (direntB, Except.ok noDelimText)]⟩ :=
  ⟨⟨by decide, by decide⟩,
   (batchPartitionBehavior 0 loadStubA).1
     [(direntA, (Except.ok goodText : Except Str Str))]
     direntB "ENOENT".data [] (by decide),
   (batchPartitionBehavior 0 loadStubA).2
     [(direntA, (Except.ok goodText : Except Str Str)),
      (direntB, Except.ok noDelimText)]
     (by decide)⟩

-- ===========================================================================
-- Theorems: date coercion (C4, C5)
-- ===========================================================================

/-- C4.  On a mapping holding the shape-matching but non-existent date
string 2025-99-99, the date pass that the parse pipeline actually runs
(convertFrontMatterStringDates of markdown.ts) replaces the string with
the invalid date value instead of keeping the original string, while
the standalone pass of date.ts (convertFrontmatterDateStrings, the one
the repository tests pin) keeps the original string as the claim
describes; both continue with the remaining keys. -/
theorem pipelineInvalidDateShapedString :
    convertFrontMatterStringDates 0
        [("badDate".data, JsValue.str "2025-99-99".data),
         ("title".data, JsValue.str "My Post".data)] =
      [("badDate".data, JsValue.date none),
       ("title".data, JsValue.str "My Post".data)] ∧
    convertFrontmatterDateStrings 0
        [("badDate".data, JsValue.str "2025-99-99".data),
         ("title".data, JsValue.str "My Post".data)] =
      [("badDate".data, JsValue.str "2025-99-99".data),
       ("title".data, JsValue.str "My Post".data)] :=
  ⟨rfl, rfl⟩

/-- C5.  Date coercion appends T00:00:00, which the engine parses as
local time, so formatting with the UTC accessors reproduces the
original string only in environments at or west of UTC: at offset +60
minutes the round trip yields the previous day, at offset 0 it yields
the original day. -/
theorem dateRoundTripTimezoneDependent :
    convertFrontmatterDateStrings 60
        [("publishDate".data, JsValue.str "2025-11-15".data)] =
      [("publishDate".data, JsValue.date (some ⟨2025, 11, 14, 1380⟩))] ∧
    convertDateToStringYYYY_MM_DD (some ⟨2025, 11, 14, 1380⟩) =
      "2025-11-14".data ∧
    convertFrontmatterDateStrings 0
        [("publishDate".data, JsValue.str "2025-11-15".data)] =
      [("publishDate".data, JsValue.date (some ⟨2025, 11, 15, 0⟩))] ∧
    convertDateToStringYYYY_MM_DD (some ⟨2025, 11, 15, 0⟩) =
      "2025-11-15".data :=
  ⟨rfl, rfl, rfl, rfl⟩

-- ===========================================================================
-- Theorems: writeMarkdownFile (C8)
-- ===========================================================================

/-- C8 counterexample.  Writing a document with a non-empty mapping puts
a single newline between the closing delimiter and the body: the output
differs from the spec shape with a blank line after the delimiter. -/
theorem writeNoBlankLine_cx :
    writeMarkdownFileContent dumpStub [("t".data, JsValue.str "x".data)]
        "body".data =
      "---\nt: x\n---\nbody".data ∧
    writeMarkdownFileContent dumpStub [("t".data, JsValue.str "x".data)]
        "body".data ≠
      writeMarkdownSpecShape dumpStub [("t".data, JsValue.str "x".data)]
        "body".data :=
  ⟨rfl, by decide⟩

/-- C8 amended.  An empty mapping writes the content verbatim with no
delimiters; a non-empty mapping writes the dumped YAML wrapped in
delimiter lines followed directly by one newline and the body text,
with no blank line, and with no trailing newline when the body is
empty. -/
theorem writeMarkdownShape (dump : FrontMatter → Str)
    (frontMatter : FrontMatter) (content : Str) :
    (frontMatter = [] →
      writeMarkdownFileContent dump frontMatter content = content) ∧
    (frontMatter ≠ [] → content ≠ [] →
      writeMarkdownFileContent dump frontMatter content =
        "---\n".data ++ dump frontMatter ++ "---\n".data ++ content) ∧
    (frontMatter ≠ [] → content = [] →
      writeMarkdownFileContent dump frontMatter content =
        "---\n".data ++ dump frontMatter ++ "---".data) := by
  refine ⟨?_, ?_, ?_⟩
  · intro h
    subst h
    by_cases hc : content = []
    · subst hc; rfl
    · simp [writeMarkdownFileContent, hc]
  · intro hf hc
    have hlen : frontMatter.length > 0 := by
      cases frontMatter with
      | nil => simp at hf
      | cons a l => simp
    simp [writeMarkdownFileContent, hlen, hc]
  · intro hf hc
    subst hc
    have hlen : frontMatter.length > 0 := by
      cases frontMatter with
      | nil => simp at hf
      | cons a l => simp
    simp [writeMarkdownFileContent, hlen]

/-- C8 amended, witness at a concrete document. -/
theorem writeMarkdownShape_witness :
    (([("t".data, JsValue.str "x".data)] : FrontMatter) ≠ [] ∧
     "body".data ≠ ([] : Str)) ∧
    writeMarkdownFileContent dumpStub [("t".data, JsValue.str "x".data)]
        "body".data =
      "---\n".data ++ dumpStub [("t".data, JsValue.str "x".data)] ++
        "---\n".data ++ "body".data :=
  ⟨⟨by simp, by simp⟩,
   (writeMarkdownShape dumpStub [("t".data, JsValue.str "x".data)]
       "body".data).2.1 (by simp) (by simp)⟩

-- ===========================================================================
-- Theorems: schema validation (C9)
-- ===========================================================================

/-- The validation loop counts exactly the passing documents and keeps
exactly their re-typed copies, in order, whatever previousFilename
carries. -/
theorem validateGo_spec (safeParse : FrontMatter → Except (List Issue) β) :
    ∀ (objects : List MarkdownFileResult) (prev : Str),
      (validateGo safeParse objects prev).2.1 =
        objects.countP (fun o => exceptIsOk (safeParse o.frontMatter)) ∧
      (validateGo safeParse objects prev).2.2 =
        objects.filterMap (fun o =>
          match safeParse o.frontMatter with
          | Except.ok d => some ⟨o.dirent, d, o.content⟩
          | Except.error _ => none) ∧
      (validateGo safeParse objects prev).2.2.length =
        (validateGo safeParse objects prev).2.1 := by
  intro objects
  induction objects with
  | nil => intro prev; simp [validateGo]
  | cons obj rest ih =>
    intro prev
    cases hp : safeParse obj.frontMatter with
    | ok d =>
      have h := ih prev
      refine ⟨?_, ?_, ?_⟩
      · simp [validateGo, hp, List.countP_cons, exceptIsOk, h.1]
      · simp [validateGo, hp, h.2.1]
      · simp only [validateGo, hp, List.length_cons]
        simp [h.2.2]
    | error issues =>
      have h := ih (issuesLines (pathJoin obj.dirent.parentPath obj.dirent.name)
        issues prev).2
      refine ⟨?_, ?_, ?_⟩
      · simp [validateGo, hp, List.countP_cons, exceptIsOk, h.1]
      · simp [validateGo, hp, h.2.1]
      · simp only [validateGo, hp]
        exact h.2.2

/-- C9.  validateMarkdownObjects reports filesFound as the input length
regardless of outcomes, filesValid as the number of documents passing
the schema, and validatedObjects as exactly the passing documents, so
its length equals filesValid and is at most filesFound. -/
theorem validateAggregates (β : Type)
    (safeParse : FrontMatter → Except (List Issue) β) (now : Str)
    (objects : List MarkdownFileResult) :
    (validateMarkdownObjects safeParse now objects).filesFound =
      objects.length ∧
    (validateMarkdownObjects safeParse now objects).filesValid =
      objects.countP (fun o => exceptIsOk (safeParse o.frontMatter)) ∧
    (validateMarkdownObjects safeParse now objects).validatedObjects =
      objects.filterMap (fun o =>
        match safeParse o.frontMatter with
        | Except.ok d => some ⟨o.dirent, d, o.content⟩
        | Except.error _ => none) ∧
    (validateMarkdownObjects safeParse now objects).validatedObjects.length =
      (validateMarkdownObjects safeParse now objects).filesValid ∧
    (validateMarkdownObjects safeParse now objects).filesValid ≤
      objects.length := by
  have h := validateGo_spec safeParse objects []
  refine ⟨rfl, ?_, ?_, ?_, ?_⟩
  · exact h.1
  · exact h.2.1
  · exact h.2.2
  · rw [show (validateMarkdownObjects safeParse now objects).filesValid =
        (validateGo safeParse objects []).2.1 from rfl, h.1]
    exact List.countP_le_length _

-- ===========================================================================
-- Theorems: pagination (C10)
-- ===========================================================================

/-- Bounds of the page count: the pages cover the rows, and all pages
but the last start strictly inside the rows. -/
theorem pagerTotalPages_bounds (n k : Nat) (hk : 0 < k) (hn : 0 < n) :
    n ≤ pagerTotalPages n k * k ∧
    (pagerTotalPages n k - 1) * k ≤ n - 1 ∧
    1 ≤ pagerTotalPages n k := by
  unfold pagerTotalPages
  rw [if_neg (by omega)]
  have hdm := Nat.div_add_mod (n + k - 1) k
  have hmlt : (n + k - 1) % k < k := Nat.mod_lt _ hk
  have hq1 : 1 ≤ (n + k - 1) / k := by
    rcases Nat.eq_zero_or_pos ((n + k - 1) / k) with h0 | h1
    · rw [h0, Nat.mul_zero] at hdm; omega
    · exact h1
  refine ⟨?_, ?_, hq1⟩
  · rw [Nat.mul_comm]; omega
  · rw [Nat.sub_mul, Nat.one_mul, Nat.mul_comm]; omega

/-- The rows of a valid page are the page-sized chunk of the array
starting at the zero-based index pageSize times the page ordinal. -/
theorem pagerDataRows_eq (arr : List α) (k p : Nat) (hk : 0 < k)
    (hp1 : 1 ≤ p) (hp2 : p ≤ pagerTotalPages arr.length k) :
    pagerDataRows arr k p = (arr.drop ((p - 1) * k)).take k := by
  have hn0 : 0 < arr.length := by
    by_contra h
    have hz : arr.length = 0 := by omega
    rw [hz] at hp2
    simp [pagerTotalPages] at hp2
    omega
  obtain ⟨hub, hlb, hq1⟩ := pagerTotalPages_bounds arr.length k hk hn0
  have hvalid : pagerIsValidPage (pagerTotalPages arr.length k) p = true := by
    simp only [pagerIsValidPage, Bool.and_eq_true, decide_eq_true_eq]
    exact ⟨hp1, hp2⟩
  have hppred : (p - 1) * k + k = p * k := by
    have hkp : k ≤ p * k := Nat.le_mul_of_pos_left k hp1
    rw [Nat.sub_mul, Nat.one_mul]
    omega
  have hpq : p * k ≤ pagerTotalPages arr.length k * k :=
    Nat.mul_le_mul_right k hp2
  have hpq' : (p - 1) * k ≤ (pagerTotalPages arr.length k - 1) * k :=
    Nat.mul_le_mul_right k (by omega)
  have hplt : (p - 1) * k < arr.length := by omega
  have hPcast : ((p * k : Nat) : Int) = (p : Int) * (k : Int) := by
    push_cast; ring
  simp only [pagerDataRows, pagerGetRowsForPage, pagerBounding,
    pagerBoundingRaw, jsSlice, hvalid, if_true]
  rw [← hPcast]
  have hs : (if ((p * k : Nat) : Int) - 1 - (k : Int) + 1 < 0 then
      max ((arr.length : Int) + (((p * k : Nat) : Int) - 1 - (k : Int) + 1)) 0
    else min (((p * k : Nat) : Int) - 1 - (k : Int) + 1) (arr.length : Int)).toNat
      = (p - 1) * k := by
    split_ifs with h1
    · omega
    · omega
  by_cases hclamp : ((p * k : Nat) : Int) - 1 ≥ (arr.length : Int)
  · rw [if_pos hclamp]
    simp only
    rw [hs]
    rw [List.take_eq_take, List.length_drop]
    split_ifs <;> omega
  · rw [if_neg hclamp]
    simp only
    rw [hs]
    rw [List.take_eq_take, List.length_drop]
    split_ifs <;> omega

/-- Concatenating consecutive page-sized chunks reassembles the list,
as soon as the chunk range covers its length. -/
theorem chunksJoin (k : Nat) :
    ∀ (m : Nat) (arr : List α), arr.length ≤ m * k →
      ((List.range m).map (fun i => (arr.drop (i * k)).take k)).flatten = arr := by
  intro m
  induction m with
  | zero =>
    intro arr h
    simp only [Nat.zero_mul, Nat.le_zero] at h
    rw [List.eq_nil_of_length_eq_zero h]
    rfl
  | succ m ih =>
    intro arr h
    rw [List.range_succ_eq_map, List.map_cons, List.map_map]
    have hmap : (List.map ((fun i => (arr.drop (i * k)).take k) ∘ Nat.succ)
        (List.range m)) =
        List.map (fun i => ((arr.drop k).drop (i * k)).take k) (List.range m) := by
      apply List.map_congr_left
      intro i _
      simp only [Function.comp]
      rw [List.drop_drop]
      have hidx : Nat.succ i * k = k + i * k := by
        rw [Nat.succ_mul]
        omega
      rw [hidx]
    rw [hmap, List.flatten_cons]
    simp only [Nat.zero_mul, List.drop_zero]
    rw [ih (arr.drop k) (by rw [List.length_drop]; rw [Nat.succ_mul] at h; omega)]
    exact List.take_append_drop k arr

/-- C10.  For a positive pageSize, the pages of a Pager partition the
array: the dataRows of pages one through totalPages concatenate to the
array in order, every page before the last holds exactly pageSize rows,
and for a non-empty array the last page holds between one and pageSize
rows. -/
theorem pagerPartitions (arr : List α) (k : Nat) (hk : 0 < k) :
    (((List.range (pagerTotalPages arr.length k)).map
        (fun i => pagerDataRows arr k (i + 1))).flatten = arr) ∧
    (∀ p, 1 ≤ p → p < pagerTotalPages arr.length k →
      (pagerDataRows arr k p).length = k) ∧
    (arr ≠ [] →
      1 ≤ (pagerDataRows arr k (pagerTotalPages arr.length k)).length ∧
      (pagerDataRows arr k (pagerTotalPages arr.length k)).length ≤ k) := by
  refine ⟨?_, ?_, ?_⟩
  · have hmap : (List.range (pagerTotalPages arr.length k)).map
        (fun i => pagerDataRows arr k (i + 1)) =
        (List.range (pagerTotalPages arr.length k)).map
          (fun i => (arr.drop (i * k)).take k) := by
      apply List.map_congr_left
      intro i hi
      rw [List.mem_range] at hi
      rw [pagerDataRows_eq arr k (i + 1) hk (by omega) (by omega)]
      simp
    rw [hmap]
    apply chunksJoin
    rcases Nat.eq_zero_or_pos arr.length with h0 | h1
    · rw [h0]
      exact Nat.zero_le _
    · exact (pagerTotalPages_bounds arr.length k hk h1).1
  · intro p hp1 hp2
    rcases Nat.eq_zero_or_pos arr.length with h0 | h1
    · rw [h0] at hp2
      simp [pagerTotalPages] at hp2
    · obtain ⟨hub, hlb, hq1⟩ := pagerTotalPages_bounds arr.length k hk h1
      rw [pagerDataRows_eq arr k p hk hp1 (by omega)]
      rw [List.length_take, List.length_drop]
      have hppred : (p - 1) * k + k = p * k := by
        have hkp : k ≤ p * k := Nat.le_mul_of_pos_left k hp1
        rw [Nat.sub_mul, Nat.one_mul]
        omega
      have hpq : p * k ≤ (pagerTotalPages arr.length k - 1) * k :=
        Nat.mul_le_mul_right k (by omega)
      omega
  · intro hne
    have h1 : 0 < arr.length := by
      cases arr with
      | nil => simp at hne
      | cons a l => simp
    obtain ⟨hub, hlb, hq1⟩ := pagerTotalPages_bounds arr.length k hk h1
    rw [pagerDataRows_eq arr k (pagerTotalPages arr.length k) hk hq1 (by omega)]
    rw [List.length_take, List.length_drop]
    constructor
    · omega
    · omega

/-- C10, witness at a five-element array with page size two. -/
theorem pagerPartitions_witness :
    0 < 2 ∧
    ((((List.range (pagerTotalPages [1, 2, 3, 4, 5].length 2)).map
        (fun i => pagerDataRows [1, 2, 3, 4, 5] 2 (i + 1))).flatten = [1, 2, 3, 4, 5]) ∧
    (∀ p, 1 ≤ p → p < pagerTotalPages [1, 2, 3, 4, 5].length 2 →
      (pagerDataRows [1, 2, 3, 4, 5] 2 p).length = 2) ∧
    ([1, 2, 3, 4, 5] ≠ ([] : List Nat) →
      1 ≤ (pagerDataRows [1, 2, 3, 4, 5] 2
        (pagerTotalPages [1, 2, 3, 4, 5].length 2)).length ∧
      (pagerDataRows [1, 2, 3, 4, 5] 2
        (pagerTotalPages [1, 2, 3, 4, 5].length 2)).length ≤ 2)) :=
  ⟨by decide, pagerPartitions [1, 2, 3, 4, 5] 2 (by decide)⟩
